import Mathlib

/-!
Verification development for the AWQ search/quantization core
(`awq/models/base.py` of the AutoAWQ repository).

The Python source is shallowly embedded: the per-block search loop of
`BaseAWQForCausalLM._awq_search` is modelled as the list of device/search
events it performs (with list indexing made explicit, so that the
out-of-range accesses of `clear_other_layer` become `Except.error`),
`_awq_quant` and `_load_quantized_modules` are modelled as state
transformers on the model's named linear sublayers, and `save_quantized`
is modelled as the list of file actions it performs.  Machine floats are
modelled as rationals.
-/

namespace AWQ

/-- Events performed by the per-block search loop of `_awq_search`
(`base.py` lines 163-243).  `clearToCpu idx` is the `layers[idx].to('cpu')`
move inside `clear_other_layer`; `makeResident i dev` is
`layer.to(f'cuda:{int(i/10)}')`; `registerHook`/`removeHook` are the
forward-hook registration/removal around the calibration forward pass;
`evict i` is the `layer.cpu()` call at the end of iteration `i`. -/
inductive SearchEvent : Type
  | clearToCpu (idx : Nat)
  | makeResident (i : Nat) (dev : Nat)
  | registerHook (i : Nat) (name : String)
  | blockForward (i : Nat)
  | removeHook (i : Nat) (name : String)
  | concatInputs (i : Nat)
  | scaleSearch (i : Nat)
  | applyScale (i : Nat)
  | clipSearch (i : Nat)
  | applyClip (i : Nat)
  | evict (i : Nat)
deriving DecidableEq, Repr

/-- `e₁` occurs (at some position) strictly before an occurrence of `e₂`
in the list `l`. -/
def occursBefore {α : Type} (e₁ e₂ : α) (l : List α) : Prop :=
  ∃ a b c, l = a ++ e₁ :: b ++ e₂ :: c

/-- The moves performed by `clear_other_layer(layers, i)` when every index
is in range: `layers[0..9]` to cpu, then `layers[ten..ten+10)` to cpu with
`ten = int(i/10)*10` (`base.py` lines 163-176). -/
def clearEvts (i : Nat) : List SearchEvent :=
  (List.range 10).map SearchEvent.clearToCpu ++
    (List.range 10).map (fun k => SearchEvent.clearToCpu (i / 10 * 10 + k))

/-- The events of one iteration of the search loop after
`clear_other_layer` returns: make the block resident on `cuda:{i/10}`,
register a forward hook on every named linear, run the calibration forward
pass (whose output becomes the next block's input), remove every hook,
concatenate the captured inputs, run scale search and apply the scales
(when `auto_scale`), run clip search and apply the clips (when
`mse_range`), and finally evict the block with `layer.cpu()`
(`base.py` lines 182-242). -/
def blockRest (names : List String) (autoScale mseRange : Bool) (i : Nat) :
    List SearchEvent :=
  [SearchEvent.makeResident i (i / 10)] ++
    names.map (SearchEvent.registerHook i) ++
    [SearchEvent.blockForward i] ++
    names.map (SearchEvent.removeHook i) ++
    [SearchEvent.concatInputs i] ++
    (if autoScale then [SearchEvent.scaleSearch i, SearchEvent.applyScale i] else []) ++
    (if mseRange then [SearchEvent.clipSearch i, SearchEvent.applyClip i] else []) ++
    [SearchEvent.evict i]

/-- The full event list of iteration `i` of the search loop, in the
error-free case. -/
def blockTrace (names : List String) (autoScale mseRange : Bool) (i : Nat) :
    List SearchEvent :=
  clearEvts i ++ blockRest names autoScale mseRange i

/-- Concatenated traces of iterations `0, 1, ..., m-1`. -/
def traceUpTo (names : List String) (autoScale mseRange : Bool) : Nat → List SearchEvent
  | 0 => []
  | m + 1 => traceUpTo names autoScale mseRange m ++ blockTrace names autoScale mseRange m

/-- The event trace of a complete, error-free run of the search loop over
`n` blocks. -/
def searchTraceOk (n : Nat) (names : List String) (autoScale mseRange : Bool) :
    List SearchEvent :=
  traceUpTo names autoScale mseRange n

/-- Move `layers[idx]` to cpu for each listed index, in order; an index
`≥ n` (the number of blocks) raises an out-of-range error carrying that
index, exactly as Python list indexing does in `clear_other_layer`. -/
def moveRange (n : Nat) : List Nat → Except Nat (List SearchEvent)
  | [] => Except.ok []
  | idx :: rest =>
    if idx < n then
      match moveRange n rest with
      | Except.error e => Except.error e
      | Except.ok t => Except.ok (SearchEvent.clearToCpu idx :: t)
    else Except.error idx

/-- `clear_other_layer(layers, i)` over a model with `n` blocks
(`base.py` lines 163-176): moves `layers[idx]` for `idx ∈ [0,10)` and then
for `idx ∈ [ten, ten+10)` with `ten = int(i/10)*10`, failing with the
first out-of-range index. -/
def clear_other_layer (n i : Nat) : Except Nat (List SearchEvent) :=
  match moveRange n (List.range 10) with
  | Except.error e => Except.error e
  | Except.ok a =>
    match moveRange n ((List.range 10).map (fun k => i / 10 * 10 + k)) with
    | Except.error e => Except.error e
    | Except.ok b => Except.ok (a ++ b)

/-- One iteration of the search loop over a model with `n` blocks:
`clear_other_layer` followed by the rest of the block's processing. -/
def blockBody (n : Nat) (names : List String) (autoScale mseRange : Bool) (i : Nat) :
    Except Nat (List SearchEvent) :=
  match clear_other_layer n i with
  | Except.error e => Except.error e
  | Except.ok c => Except.ok (c ++ blockRest names autoScale mseRange i)

/-- The search loop over a list of block indices, accumulating the event
trace and propagating the first out-of-range error. -/
def searchLoop (n : Nat) (names : List String) (autoScale mseRange : Bool) :
    List Nat → Except Nat (List SearchEvent)
  | [] => Except.ok []
  | i :: rest =>
    match blockBody n names autoScale mseRange i with
    | Except.error e => Except.error e
    | Except.ok b =>
      match searchLoop n names autoScale mseRange rest with
      | Except.error e => Except.error e
      | Except.ok t => Except.ok (b ++ t)

/-- Failure modes of `_awq_search`: the unconditional `layers[0]` access
before the loop (`base.py` line 127) on a model with no blocks, or an
out-of-range index inside `clear_other_layer`. -/
inductive SearchErr : Type
  | layerZero
  | evictIdx (idx : Nat)
deriving DecidableEq, Repr

/-- `_awq_search` over a model with `n` blocks whose named linears are
`names`, modelled as the event trace of its per-block loop
(`base.py` lines 113-244).  The calibration-capture prelude is abstracted
except for its unconditional `layers[0]` access. -/
def awq_search (n : Nat) (names : List String) (autoScale mseRange : Bool) :
    Except SearchErr (List SearchEvent) :=
  if n = 0 then Except.error SearchErr.layerZero
  else
    match searchLoop n names autoScale mseRange (List.range n) with
    | Except.error e => Except.error (SearchErr.evictIdx e)
    | Except.ok t => Except.ok t

/-- The block index of a `makeResident` event. -/
def residentIdx : SearchEvent → Option Nat
  | SearchEvent.makeResident i _ => some i
  | _ => none

/-- The order in which blocks are made resident during a search trace. -/
def residencyOrder (tr : List SearchEvent) : List Nat :=
  tr.filterMap residentIdx

/-- The state threading of the search loop's calibration input
(`base.py` lines 199-201): starting from the captured block-0 input `x0`,
each iteration feeds the current `inps` to block `i` and replaces `inps`
with the block's output `f i inps`.  Returns the list of values fed to
each block in order, together with the final value. -/
def searchFeed {α : Type} (f : Nat → α → α) (x0 : α) (n : Nat) : List α × α :=
  (List.range n).foldl (fun p i => (p.1 ++ [p.2], f i p.2)) ([], x0)

/-- The calibration input reaching block `i`: `x0` for block 0, and block
`i-1`'s output for block `i`. -/
def inpsVal {α : Type} (f : Nat → α → α) (x0 : α) : Nat → α
  | 0 => x0
  | i + 1 => f i (inpsVal f x0 i)

/-- The quant config dict of `base.py`: keys `zero_point`, `q_group_size`,
`w_bit`, and an optional `version` (absent models a dict without the
key). -/
structure QuantConfigM where
  zero_point : Bool
  q_group_size : Nat
  w_bit : Nat
  version : Option String
deriving DecidableEq, Repr

/-- The defaulting step at the start of `quantize` (`base.py` line 51):
`quant_config["version"] = "GEMM" if 'version' not in quant_config.keys()
else quant_config["version"]`. -/
def withDefaultVersion (cfg : QuantConfigM) : QuantConfigM :=
  { cfg with version := some (cfg.version.getD "GEMM") }

/-- The default of the `version` parameter of `from_quantized`
(`base.py` line 316). -/
def default_load_version : String := "GEMM"

/-- The quant-config loading logic of `from_quantized`
(`base.py` lines 334-343): a config file lacking `version` gets the call's
`version` argument; a missing config file yields the hard-coded default
config with that `version` argument. -/
def from_quantized_config (fileCfg : Option QuantConfigM) (version : String) :
    QuantConfigM :=
  match fileCfg with
  | some qc => if qc.version = none then { qc with version := some version } else qc
  | none => ⟨true, 128, 4, some version⟩

/-- Structural worker for `chunkList`: the first argument is fuel, which
callers set to the list length (one chunk consumes at least one element
per step, so the fuel never runs out). -/
def chunkListAux {α : Type} (g : Nat) : Nat → List α → List (List α)
  | _, [] => []
  | 0, l => [l]
  | fuel + 1, x :: xs => ((x :: xs).take g) :: chunkListAux g fuel ((x :: xs).drop g)

/-- Split a list into consecutive chunks of size `g` (the group
partitioning of the quantization kernel). -/
def chunkList {α : Type} (g : Nat) (l : List α) : List (List α) :=
  if g = 0 then (if l.isEmpty then [] else [l]) else chunkListAux g l.length l

/-- Modelled from the spec: one group of the asymmetric (zero-point)
quantize/dequantize kernel of `pseudo_quantize_tensor`
(spec section 4.1; `awq/quantize/quantizer.py` is not under `src/`):
`scale = (max - min) / (2^w - 1)` clamped to an epsilon,
`zero_point = round(-min/scale)`,
`q = clamp(round(x/scale) + zero_point, 0, 2^w - 1)`,
`x' = (q - zero_point) * scale`. -/
def quantGroupSpec (w_bit : Nat) (g : List ℚ) : List ℚ :=
  match g with
  | [] => []
  | x :: xs =>
    let mx : ℚ := xs.foldl max x
    let mn : ℚ := xs.foldl min x
    let maxInt : ℤ := 2 ^ w_bit - 1
    let scale : ℚ := max ((mx - mn) / (maxInt : ℚ)) (1 / 100000)
    let zp : ℤ := round (-mn / scale)
    (x :: xs).map (fun v =>
      ((min (max (round (v / scale) + zp) 0) maxInt : ℤ) - zp) * scale)

/-- Modelled from the spec: `pseudo_quantize_tensor` in zero-point mode
(spec section 4.1; `awq/quantize/quantizer.py` is not under `src/`) —
group-wise quantize/dequantize of a weight row.  Divisibility of the
length by the group size is asserted upstream and not re-checked here. -/
def pseudo_quantize_tensor (w_bit q_group_size : Nat) (w : List ℚ) : List ℚ :=
  ((chunkList q_group_size w).map (quantGroupSpec w_bit)).flatten

/-- A named linear sublayer's module state: still floating point, or
replaced by a `WQLinear_GEMM`/`WQLinear_GEMV` built from the given
(already pseudo-quantized) weight. -/
inductive LinMod : Type
  | float (w : List ℚ)
  | wq (version : String) (w : List ℚ)
deriving DecidableEq, Repr

/-- A transformer block as `_awq_quant` sees it: its named linear
sublayers with their floating-point weights. -/
abbrev QBlock := List (String × List ℚ)

/-- A transformer block during/after module replacement. -/
abbrev LBlock := List (String × LinMod)

/-- A block whose linears are all still floating point. -/
def floatify (b : QBlock) : LBlock := b.map (fun p => (p.1, LinMod.float p.2))

/-- Failure modes of `_awq_quant` / `_load_quantized_modules`: the
`assert self.quant_config["zero_point"]` at the top, or the
`UnboundLocalError` on `q_linear_module` when the version tag is neither
"GEMM" nor "GEMV" (`base.py` lines 88-95 and 441-447). -/
inductive QFail : Type
  | zeroPointAssert
  | versionUnbound
deriving DecidableEq, Repr

/-- The per-linear loop of `_awq_quant` (`base.py` lines 78-108): each
linear's weight is first pseudo-quantized **in place**
(`module.weight.data = pseudo_quantize_tensor(...)`), then the version
dispatch selects the packed-linear class; an unrecognized version leaves
`q_linear_module` unbound, raising at the `from_linear` call — after the
in-place weight write.  The error carries the module state at the point
of failure. -/
def quantLinears (cfg : QuantConfigM) :
    List (String × List ℚ) → Except (List (String × LinMod)) (List (String × LinMod))
  | [] => Except.ok []
  | (nm, w) :: rest =>
    let w2 := pseudo_quantize_tensor cfg.w_bit cfg.q_group_size w
    if cfg.version = some "GEMM" ∨ cfg.version = some "GEMV" then
      match quantLinears cfg rest with
      | Except.ok tl => Except.ok ((nm, LinMod.wq (cfg.version.getD "") w2) :: tl)
      | Except.error tl => Except.error ((nm, LinMod.wq (cfg.version.getD "") w2) :: tl)
    else
      Except.error ((nm, LinMod.float w2) :: rest.map (fun p => (p.1, LinMod.float p.2)))

/-- The per-block loop of `_awq_quant`, propagating a failure together
with the model state at the point of failure. -/
def quantBlocks (cfg : QuantConfigM) :
    List QBlock → Except (List LBlock) (List LBlock)
  | [] => Except.ok []
  | b :: rest =>
    match quantLinears cfg b with
    | Except.error lb => Except.error (lb :: rest.map floatify)
    | Except.ok lb =>
      match quantBlocks cfg rest with
      | Except.ok tl => Except.ok (lb :: tl)
      | Except.error tl => Except.error (lb :: tl)

/-- `_awq_quant` (`base.py` lines 68-111): asserts `zero_point` before
touching any block, then quantizes and replaces every named linear of
every block in order.  On failure the error carries the model state at
that point. -/
def awq_quant (cfg : QuantConfigM) (blocks : List QBlock) :
    Except (QFail × List LBlock) (List LBlock) :=
  if cfg.zero_point = false then
    Except.error (QFail.zeroPointAssert, blocks.map floatify)
  else
    match quantBlocks cfg blocks with
    | Except.error st => Except.error (QFail.versionUnbound, st)
    | Except.ok st => Except.ok st

/-- The per-linear loop of `_load_quantized_modules`
(`base.py` lines 441-454): the version dispatch happens before
`from_linear`, so an unrecognized version fails before any weight is
modified. -/
def loadLinears (version : String) :
    List (String × List ℚ) → Except (List (String × LinMod)) (List (String × LinMod))
  | [] => Except.ok []
  | (nm, w) :: rest =>
    if version = "GEMM" ∨ version = "GEMV" then
      match loadLinears version rest with
      | Except.ok tl => Except.ok ((nm, LinMod.wq version w) :: tl)
      | Except.error tl => Except.error ((nm, LinMod.wq version w) :: tl)
    else
      Except.error ((nm, LinMod.float w) :: rest.map (fun p => (p.1, LinMod.float p.2)))

/-- The per-block loop of `_load_quantized_modules`. -/
def loadBlocks (version : String) :
    List QBlock → Except (List LBlock) (List LBlock)
  | [] => Except.ok []
  | b :: rest =>
    match loadLinears version b with
    | Except.error lb => Except.error (lb :: rest.map floatify)
    | Except.ok lb =>
      match loadBlocks version rest with
      | Except.ok tl => Except.ok (lb :: tl)
      | Except.error tl => Except.error (lb :: tl)

/-- `_load_quantized_modules` (`base.py` lines 424-457): asserts
`zero_point` first, then replaces every named linear of every block. -/
def load_quantized_modules (zeroPoint : Bool) (version : String) (blocks : List QBlock) :
    Except (QFail × List LBlock) (List LBlock) :=
  if zeroPoint = false then
    Except.error (QFail.zeroPointAssert, blocks.map floatify)
  else
    match loadBlocks version blocks with
    | Except.error st => Except.error (QFail.versionUnbound, st)
    | Except.ok st => Except.ok st

/-- Errors terminating a `quantize` invocation: an index error escaping
the search loop, or a failure inside `_awq_quant` (with the model state at
that point). -/
inductive RunErr : Type
  | searchIdx (e : SearchErr)
  | quantFail (f : QFail) (st : List LBlock)
deriving DecidableEq, Repr

deriving instance DecidableEq for Except

/-- Result of a `quantize` invocation: the config object after the
defaulting step, the search-pass event trace (empty when the search pass
was skipped or aborted), and the final model state or the terminating
error. -/
structure QuantizeOut where
  cfg : QuantConfigM
  searchTrace : List SearchEvent
  result : Except RunErr (List LBlock)
deriving DecidableEq, Repr

/-- The `run_quant` phase of `quantize` (`base.py` lines 60-62). -/
def quantPhase (cfg : QuantConfigM) (blocks : List QBlock)
    (tr : List SearchEvent) (run_quant : Bool) : QuantizeOut :=
  if run_quant then
    match awq_quant cfg blocks with
    | Except.error (f, st) => ⟨cfg, tr, Except.error (RunErr.quantFail f st)⟩
    | Except.ok st => ⟨cfg, tr, Except.ok st⟩
  else ⟨cfg, tr, Except.ok (blocks.map floatify)⟩

/-- `quantize` (`base.py` lines 45-62): apply the version default once,
run the search pass when `run_search` (the model's named linears are
`names`), then run the quantization pass when `run_quant`. -/
def quantize (cfg0 : QuantConfigM) (blocks : List QBlock) (names : List String)
    (autoScale mseRange run_search run_quant : Bool) : QuantizeOut :=
  let cfg := withDefaultVersion cfg0
  if run_search then
    match awq_search blocks.length names autoScale mseRange with
    | Except.error e => ⟨cfg, [], Except.error (RunErr.searchIdx e)⟩
    | Except.ok tr => quantPhase cfg blocks tr run_quant
  else quantPhase cfg blocks [] run_quant

/-- The `SearchResult` persisted by `save_quantized`: scale records and
clip records, each keyed by a (block-qualified) sublayer name. -/
structure SearchResultM where
  scale : List (String × List ℚ)
  clip : List (String × List ℚ)
deriving DecidableEq, Repr

/-- File-system actions performed by `save_quantized`
(`base.py` lines 246-295). -/
inductive SaveAction : Type
  | savePretrainedEmpty
  | removeEmptyBin (path : String)
  | saveSearchResult (path : String) (sr : SearchResultM)
  | shardCall (maxShardSize : String) (weightsName : String)
  | saveShard (path : String)
  | saveShardIndex (path : String)
  | saveQuantConfig (path : String)
deriving DecidableEq, Repr

/-- The trailing-slash strip at `base.py` line 288. -/
def stripSlash (s : String) : String :=
  if s.back = '/' then s.dropRight 1 else s

/-- `_save_files` (`base.py` lines 247-286): save the host model's
non-weight files with an empty state dict, remove the empty weight file,
then either persist the search result as a standalone file or shard the
state dict (via the external `shard_checkpoint`, whose output is the
`shards`/`hasIndex` parameters) and write the shard index when sharding
occurred; finally always write `quant_config.json`. -/
def save_files (save_dir model_name : String) (safetensors : Bool)
    (shard_size : String) (search_result : Option SearchResultM) (shards : List String)
    (hasIndex : Bool) : List SaveAction :=
  [SaveAction.savePretrainedEmpty,
   SaveAction.removeEmptyBin (save_dir ++ "/pytorch_model.bin")] ++
  (match search_result with
   | some sr => [SaveAction.saveSearchResult (save_dir ++ "/" ++ model_name) sr]
   | none =>
     let wname := if safetensors then "model.safetensors" else "pytorch_model.bin"
     SaveAction.shardCall shard_size wname ::
       (shards.map (fun f => SaveAction.saveShard (save_dir ++ "/" ++ f)) ++
        (if hasIndex then
          [SaveAction.saveShardIndex (save_dir ++ "/" ++ wname ++ ".index.json")]
         else []))) ++
  [SaveAction.saveQuantConfig (save_dir ++ "/quant_config.json")]

/-- The default of the `shard_size` parameter of `save_quantized`
(`base.py` line 246). -/
def default_shard_size : String := "10GB"

/-- `save_quantized` (`base.py` lines 246-295): persist the search result
as `awq_model_search_result.pt` exactly when one exists and the model is
not quantized; otherwise save the (sharded) weights. -/
def save_quantized (save_dir : String) (safetensors : Bool)
    (shard_size : String) (search_result : Option SearchResultM) (is_quantized : Bool)
    (shards : List String) (hasIndex : Bool) : List SaveAction :=
  let d := stripSlash save_dir
  if search_result.isNone || is_quantized then
    save_files d "" safetensors shard_size none shards hasIndex
  else
    save_files d "awq_model_search_result.pt" safetensors shard_size
      search_result shards hasIndex

/-- `save_quantized` invoked with its default shard size. -/
def save_quantized_default (save_dir : String) (safetensors : Bool)
    (search_result : Option SearchResultM) (is_quantized : Bool) (shards : List String)
    (hasIndex : Bool) : List SaveAction :=
  save_quantized save_dir safetensors default_shard_size search_result
    is_quantized shards hasIndex

/-- Modelled from the spec: `append_str_prefix` from `awq/utils/module.py`
(not under `src/`) as used at `base.py` lines 222 and 236 — prefix every
record's name with the block-qualified op name (spec: "append prefix to
make names global", records "keyed by globally-qualified
(block-index-prefixed) sublayer names"). -/
def appendStrPre {α : Type} (recs : List (String × α)) (pre : String) :
    List (String × α) :=
  recs.map (fun r => (pre ++ r.1, r.2))

/-- The accumulation of `awq_results["scale"]` / `awq_results["clip"]`
over the search loop (`base.py` lines 158-161, 222, 236): block `i`'s
local records, prefixed with `get_op_name(model, layers[i]) + "."`. -/
def awq_results_entries {α : Type} (opName : Nat → String)
    (localRecs : Nat → List (String × α)) (n : Nat) : List (String × α) :=
  (List.range n).foldl (fun acc i => acc ++ appendStrPre (localRecs i) (opName i ++ ".")) []

/-- An abstract tensor: shape, dtype, device and (rational) values. -/
structure TensorM where
  shape : List Nat
  dtype : String
  device : String
  vals : List ℚ
deriving DecidableEq, Repr

/-- `torch.ones(shape, dtype=..., device=...)`. -/
def onesT (shape : List Nat) (dtype device : String) : TensorM :=
  ⟨shape, dtype, device, List.replicate (shape.foldl (· * ·) 1) 1⟩

/-- The module sitting at a block's scalable-activation slot: either the
original activation module or a `ScaledActivation` adapter wrapping it
with a scale tensor. -/
inductive ActModule : Type
  | plain (nm : String)
  | scaledActivation (inner : ActModule) (scales : TensorM)
deriving DecidableEq, Repr

/-- The static part of `get_act_for_scaling`'s answer for a block:
`is_scalable`, `scale_name`, `scale_shape`. -/
structure ActScaleInfo where
  is_scalable : Bool
  scale_name : String
  scale_shape : List Nat
deriving DecidableEq, Repr

/-- A transformer block as `_scale_activations` sees it: its parameters
(`next(layer.parameters())` is the head), the adapter's static scaling
info, and the module currently at the `scale_name` slot. -/
structure LayerM where
  params : List TensorM
  actInfo : ActScaleInfo
  actModule : ActModule
deriving DecidableEq, Repr

/-- The model adapter's `get_act_for_scaling(layer)`: the static info
together with the module currently at the `scale_name` slot. -/
def get_act_for_scaling (l : LayerM) : ActScaleInfo × ActModule :=
  (l.actInfo, l.actModule)

/-- `_scale_activations` (`base.py` lines 459-472): when the block is
scalable and the slot is not already a `ScaledActivation`, wrap it in one
whose scale tensor is `torch.ones(scale_shape, dtype=param.dtype,
device=param.device)` with `param = next(layer.parameters())`; `none`
models the `StopIteration` of a parameterless block.  Otherwise the block
is left unchanged. -/
def scale_activations (l : LayerM) : Option LayerM :=
  let info := (get_act_for_scaling l).1
  if info.is_scalable then
    match (get_act_for_scaling l).2 with
    | ActModule.scaledActivation _ _ => some l
    | ActModule.plain nm =>
      match l.params with
      | [] => none
      | p :: _ =>
        some { l with
          actModule := ActModule.scaledActivation (ActModule.plain nm)
            (onesT l.actInfo.scale_shape p.dtype p.device) }
  else some l

/-! Infrastructure lemmas. -/

theorem occursBefore_of_eq {α : Type} {e₁ e₂ : α} {l u A B v : List α}
    (hl : l = u ++ (A ++ (B ++ v))) (h₁ : e₁ ∈ A) (h₂ : e₂ ∈ B) :
    occursBefore e₁ e₂ l := by
  obtain ⟨a₁, a₂, hA⟩ := List.append_of_mem h₁
  obtain ⟨b₁, b₂, hB⟩ := List.append_of_mem h₂
  refine ⟨u ++ a₁, a₂ ++ b₁, b₂ ++ v, ?_⟩
  subst hA hB hl
  simp [List.append_assoc]

theorem moveRange_ok {n : Nat} {l : List Nat} (h : ∀ x ∈ l, x < n) :
    moveRange n l = Except.ok (l.map SearchEvent.clearToCpu) := by
  induction l with
  | nil => rfl
  | cons x xs ih =>
    have hx : x < n := h x (List.mem_cons_self x xs)
    have hxs := ih (fun y hy => h y (List.mem_cons_of_mem x hy))
    simp [moveRange, hx, hxs]

theorem moveRange_err {n : Nat} {l₁ l₂ : List Nat} (h : ∀ x ∈ l₁, x < n) :
    moveRange n (l₁ ++ n :: l₂) = Except.error n := by
  induction l₁ with
  | nil => simp [moveRange]
  | cons x xs ih =>
    have hx : x < n := h x (List.mem_cons_self x xs)
    have hxs := ih (fun y hy => h y (List.mem_cons_of_mem x hy))
    simp [moveRange, hx, hxs]

theorem clear_other_layer_ok {n i : Nat} (h1 : 10 ≤ n)
    (h2 : i / 10 * 10 + 10 ≤ n) :
    clear_other_layer n i = Except.ok (clearEvts i) := by
  have ha : moveRange n (List.range 10) =
      Except.ok ((List.range 10).map SearchEvent.clearToCpu) :=
    moveRange_ok (fun x hx => lt_of_lt_of_le (List.mem_range.mp hx) h1)
  have hb : moveRange n ((List.range 10).map (fun k => i / 10 * 10 + k)) =
      Except.ok (((List.range 10).map (fun k => i / 10 * 10 + k)).map
        SearchEvent.clearToCpu) := by
    refine moveRange_ok (fun x hx => ?_)
    obtain ⟨k, hk, rfl⟩ := List.mem_map.mp hx
    have := List.mem_range.mp hk
    omega
  simp [clear_other_layer, ha, hb, clearEvts, List.map_map, Function.comp]

theorem ten_bound {n i : Nat} (h10 : 10 ∣ n) (hi : i < n) :
    i / 10 * 10 + 10 ≤ n := by
  omega

theorem blockBody_ok {n : Nat} {names : List String} {autoScale mseRange : Bool}
    {i : Nat} (h1 : 10 ≤ n) (h2 : i / 10 * 10 + 10 ≤ n) :
    blockBody n names autoScale mseRange i =
      Except.ok (blockTrace names autoScale mseRange i) := by
  simp [blockBody, clear_other_layer_ok h1 h2, blockTrace]

theorem searchLoop_ok {n : Nat} {names : List String} {autoScale mseRange : Bool}
    {l : List Nat}
    (hall : ∀ i ∈ l, blockBody n names autoScale mseRange i =
      Except.ok (blockTrace names autoScale mseRange i)) :
    searchLoop n names autoScale mseRange l =
      Except.ok ((l.map (blockTrace names autoScale mseRange)).flatten) := by
  induction l with
  | nil => rfl
  | cons x xs ih =>
    have hx := hall x (List.mem_cons_self x xs)
    have hxs := ih (fun y hy => hall y (List.mem_cons_of_mem x hy))
    simp [searchLoop, hx, hxs]

theorem flatten_map_range {names : List String} {autoScale mseRange : Bool}
    (m : Nat) :
    ((List.range m).map (blockTrace names autoScale mseRange)).flatten =
      traceUpTo names autoScale mseRange m := by
  induction m with
  | zero => rfl
  | succ k ih => simp [List.range_succ, traceUpTo, ih]

theorem awq_search_ok {n : Nat} {names : List String} {autoScale mseRange : Bool}
    (h10 : 10 ∣ n) (hn : n ≠ 0) :
    awq_search n names autoScale mseRange =
      Except.ok (searchTraceOk n names autoScale mseRange) := by
  have h1 : 10 ≤ n := by omega
  have hall : ∀ i ∈ List.range n, blockBody n names autoScale mseRange i =
      Except.ok (blockTrace names autoScale mseRange i) := by
    intro i hi
    exact blockBody_ok h1 (ten_bound h10 (List.mem_range.mp hi))
  simp [awq_search, hn, searchLoop_ok hall, flatten_map_range, searchTraceOk]

theorem traceUpTo_add (names : List String) (autoScale mseRange : Bool)
    (m d : Nat) :
    ∃ s, traceUpTo names autoScale mseRange (m + d) =
      traceUpTo names autoScale mseRange m ++ s := by
  induction d with
  | zero => exact ⟨[], by simp⟩
  | succ e ih =>
    obtain ⟨s, hs⟩ := ih
    exact ⟨s ++ blockTrace names autoScale mseRange (m + e),
      by simp [traceUpTo, hs, List.append_assoc]⟩

theorem traceUpTo_split (names : List String) (autoScale mseRange : Bool)
    {m n : Nat} (h : m ≤ n) :
    ∃ s, traceUpTo names autoScale mseRange n =
      traceUpTo names autoScale mseRange m ++ s := by
  obtain ⟨d, rfl⟩ := Nat.exists_eq_add_of_le h
  exact traceUpTo_add names autoScale mseRange m d

theorem range_cons_split {k m : Nat} (h : k < m) :
    List.range m = List.range k ++ k ::
      ((List.range (m - k - 1)).map (fun j => k + 1 + j)) := by
  obtain ⟨q, hq⟩ : ∃ q, m - k - 1 = q := ⟨m - k - 1, rfl⟩
  have hm : m = k + (q + 1) := by omega
  rw [hq]
  calc List.range m = List.range (k + (q + 1)) := by rw [← hm]
    _ = List.range k ++ (List.range (q + 1)).map (k + ·) := List.range_add k (q + 1)
    _ = List.range k ++ (0 :: (List.range q).map Nat.succ).map (k + ·) := by
        rw [List.range_succ_eq_map]
    _ = List.range k ++ k :: ((List.range q).map (fun j => k + 1 + j)) := by
        rw [List.map_cons, List.map_map]
        refine congrArg _ ?_
        refine congrArg₂ _ (by omega) ?_
        exact List.map_congr_left (fun j _ => by simp [Function.comp]; omega)

theorem searchLoop_err {n : Nat} {names : List String} {autoScale mseRange : Bool}
    {l₁ : List Nat} {j : Nat} {l₂ : List Nat} {e : Nat}
    (hok : ∀ i ∈ l₁, blockBody n names autoScale mseRange i =
      Except.ok (blockTrace names autoScale mseRange i))
    (hbad : blockBody n names autoScale mseRange j = Except.error e) :
    searchLoop n names autoScale mseRange (l₁ ++ j :: l₂) = Except.error e := by
  induction l₁ with
  | nil => simp [searchLoop, hbad]
  | cons x xs ih =>
    have hx := hok x (List.mem_cons_self x xs)
    have hxs := ih (fun y hy => hok y (List.mem_cons_of_mem x hy))
    simp [searchLoop, hx, hxs]

theorem blockBody_err_first (n : Nat) (names : List String)
    (autoScale mseRange : Bool) (i : Nat) (hn : n < 10) :
    blockBody n names autoScale mseRange i = Except.error n := by
  have hsplit := range_cons_split hn
  have herr : moveRange n (List.range 10) = Except.error n := by
    rw [hsplit]
    exact moveRange_err (fun x hx => List.mem_range.mp hx)
  simp [blockBody, clear_other_layer, herr]

theorem blockBody_err_decade {n : Nat} {names : List String}
    {autoScale mseRange : Bool} (h1 : 10 ≤ n) (hnd : ¬ 10 ∣ n) :
    blockBody n names autoScale mseRange (n / 10 * 10) = Except.error n := by
  have ha : moveRange n (List.range 10) =
      Except.ok ((List.range 10).map SearchEvent.clearToCpu) :=
    moveRange_ok (fun x hx => lt_of_lt_of_le (List.mem_range.mp hx) h1)
  have hd : n - n / 10 * 10 < 10 := by omega
  have hsplit := range_cons_split hd
  have hmap : (List.range 10).map (fun k => n / 10 * 10 + k) =
      ((List.range (n - n / 10 * 10)).map (fun k => n / 10 * 10 + k)) ++
        n :: ((List.range (10 - (n - n / 10 * 10) - 1)).map
          (fun j => n / 10 * 10 + ((n - n / 10 * 10) + 1 + j))) := by
    rw [hsplit]
    simp only [List.map_append, List.map_cons, List.map_map, Function.comp]
    congr 1
    congr 1
    omega
  have herr : moveRange n ((List.range 10).map
      (fun k => n / 10 * 10 + k)) = Except.error n := by
    rw [hmap]
    refine moveRange_err (fun x hx => ?_)
    obtain ⟨k, hk, rfl⟩ := List.mem_map.mp hx
    have := List.mem_range.mp hk
    omega
  simp [blockBody, clear_other_layer, ha, herr]

/-- Claim C9: for every (nonempty) model whose block count `n` is less
than 10 or not a multiple of 10, `clear_other_layer` indexes past the end
of the layer list — at index `n`, either at block 0 (when `n < 10`) or
once the loop reaches the final partial decade — and `_awq_search`
terminates with an out-of-range index error instead of completing or
raising one of the spec's error types. -/
theorem awq_c9 (n : Nat) (names : List String) (autoScale mseRange : Bool)
    (hn : 0 < n) (hnd : ¬ 10 ∣ n) :
    awq_search n names autoScale mseRange =
      Except.error (SearchErr.evictIdx n) := by
  have hz : ¬ n = 0 := by omega
  by_cases h10 : n < 10
  · obtain ⟨k, rfl⟩ : ∃ k, n = k + 1 := ⟨n - 1, by omega⟩
    have hb := blockBody_err_first (k + 1) names autoScale mseRange 0 h10
    have hloop : searchLoop (k + 1) names autoScale mseRange
        (List.range (k + 1)) = Except.error (k + 1) := by
      rw [List.range_succ_eq_map]
      simp [searchLoop, hb]
    simp [awq_search, hloop]
  · have h1 : 10 ≤ n := by omega
    have ht : n / 10 * 10 < n := by omega
    have hsplit := range_cons_split ht
    have hok : ∀ i ∈ List.range (n / 10 * 10),
        blockBody n names autoScale mseRange i =
          Except.ok (blockTrace names autoScale mseRange i) := by
      intro i hi
      have hilt := List.mem_range.mp hi
      exact blockBody_ok h1 (by omega)
    have hloop : searchLoop n names autoScale mseRange
        (List.range (n / 10 * 10) ++ n / 10 * 10 ::
          ((List.range (n - n / 10 * 10 - 1)).map
            (fun j => n / 10 * 10 + 1 + j))) = Except.error n :=
      searchLoop_err hok (blockBody_err_decade h1 hnd)
    rw [← hsplit] at hloop
    simp [awq_search, hz, hloop]

/-- Witness for C9 at two concrete block counts: a 7-block model (fewer
than 10) and a 25-block model (final partial decade). -/
theorem awq_c9_witness :
    awq_search 7 ["q_proj"] true true = Except.error (SearchErr.evictIdx 7) ∧
    awq_search 25 ["q_proj"] true true = Except.error (SearchErr.evictIdx 25) :=
  ⟨awq_c9 7 ["q_proj"] true true (by decide) (by decide),
   awq_c9 25 ["q_proj"] true true (by decide) (by decide)⟩

theorem count_map_zero {α β : Type} [DecidableEq β] {g : α → β} {e : β}
    (l : List α) (h : ∀ x, g x ≠ e) : (l.map g).count e = 0 := by
  refine List.count_eq_zero.mpr ?_
  intro hmem
  obtain ⟨x, _, hx⟩ := List.mem_map.mp hmem
  exact h x hx

theorem count_evict_blockTrace (names : List String) (a m : Bool) (i k : Nat) :
    (blockTrace names a m k).count (SearchEvent.evict i) =
      if i = k then 1 else 0 := by
  have hc1 : ((List.range 10).map SearchEvent.clearToCpu).count
      (SearchEvent.evict i) = 0 := count_map_zero _ (by intro x; simp)
  have hc2 : ((List.range 10).map
      (fun j => SearchEvent.clearToCpu (k / 10 * 10 + j))).count
      (SearchEvent.evict i) = 0 := count_map_zero _ (by intro x; simp)
  have hr : (names.map (SearchEvent.registerHook k)).count
      (SearchEvent.evict i) = 0 := count_map_zero _ (by intro x; simp)
  have hm : (names.map (SearchEvent.removeHook k)).count
      (SearchEvent.evict i) = 0 := count_map_zero _ (by intro x; simp)
  by_cases h : i = k
  · subst h
    cases a <;> cases m <;>
      simp [blockTrace, blockRest, clearEvts, List.count_append, List.count_cons,
        hc1, hc2, hr, hm]
  · cases a <;> cases m <;>
      simp [blockTrace, blockRest, clearEvts, List.count_append, List.count_cons,
        hc1, hc2, hr, hm, h, Ne.symm h]

theorem count_res_blockTrace (names : List String) (a m : Bool) (j k : Nat) :
    (blockTrace names a m k).count (SearchEvent.makeResident j (j / 10)) =
      if j = k then 1 else 0 := by
  have hc1 : ((List.range 10).map SearchEvent.clearToCpu).count
      (SearchEvent.makeResident j (j / 10)) = 0 :=
    count_map_zero _ (by intro x; simp)
  have hc2 : ((List.range 10).map
      (fun x => SearchEvent.clearToCpu (k / 10 * 10 + x))).count
      (SearchEvent.makeResident j (j / 10)) = 0 :=
    count_map_zero _ (by intro x; simp)
  have hr : (names.map (SearchEvent.registerHook k)).count
      (SearchEvent.makeResident j (j / 10)) = 0 :=
    count_map_zero _ (by intro x; simp)
  have hm : (names.map (SearchEvent.removeHook k)).count
      (SearchEvent.makeResident j (j / 10)) = 0 :=
    count_map_zero _ (by intro x; simp)
  by_cases h : j = k
  · subst h
    cases a <;> cases m <;>
      simp [blockTrace, blockRest, clearEvts, List.count_append, List.count_cons,
        hc1, hc2, hr, hm]
  · cases a <;> cases m <;>
      simp [blockTrace, blockRest, clearEvts, List.count_append, List.count_cons,
        hc1, hc2, hr, hm, h, Ne.symm h]

theorem count_evict_traceUpTo (names : List String) (a m : Bool) (i M : Nat) :
    (traceUpTo names a m M).count (SearchEvent.evict i) =
      if i < M then 1 else 0 := by
  induction M with
  | zero => simp [traceUpTo]
  | succ K ih =>
    simp only [traceUpTo, List.count_append, ih, count_evict_blockTrace]
    split_ifs <;> omega

theorem count_res_traceUpTo (names : List String) (a m : Bool) (j M : Nat) :
    (traceUpTo names a m M).count (SearchEvent.makeResident j (j / 10)) =
      if j < M then 1 else 0 := by
  induction M with
  | zero => simp [traceUpTo]
  | succ K ih =>
    simp only [traceUpTo, List.count_append, ih, count_res_blockTrace]
    split_ifs <;> omega

/-- Claim C3: during the search pass (over a block count the eviction
helper can handle), each block `i` is evicted back to host memory — the
`layer.cpu()` at the end of its iteration — strictly before block `i+1`
is made resident on a compute device; both events occur exactly once in
the run's trace, so a processed block is never still device-resident when
the next block becomes resident. -/
theorem awq_c3 (n : Nat) (names : List String) (autoScale mseRange : Bool)
    (i : Nat) (h10 : 10 ∣ n) (hi : i + 1 < n) :
    awq_search n names autoScale mseRange =
      Except.ok (searchTraceOk n names autoScale mseRange) ∧
    (searchTraceOk n names autoScale mseRange).count (SearchEvent.evict i) = 1 ∧
    (searchTraceOk n names autoScale mseRange).count
      (SearchEvent.makeResident (i + 1) ((i + 1) / 10)) = 1 ∧
    occursBefore (SearchEvent.evict i)
      (SearchEvent.makeResident (i + 1) ((i + 1) / 10))
      (searchTraceOk n names autoScale mseRange) := by
  have hin : i < n := by omega
  refine ⟨awq_search_ok h10 (by omega), ?_, ?_, ?_⟩
  · simp [searchTraceOk, count_evict_traceUpTo, hin]
  · simp [searchTraceOk, count_res_traceUpTo, hi]
  · obtain ⟨s, hs⟩ := traceUpTo_split names autoScale mseRange
      (show i + 2 ≤ n by omega)
    refine occursBefore_of_eq (u := traceUpTo names autoScale mseRange i)
      (A := blockTrace names autoScale mseRange i)
      (B := blockTrace names autoScale mseRange (i + 1)) (v := s) ?_ ?_ ?_
    · rw [searchTraceOk, hs]
      simp [traceUpTo, List.append_assoc]
    · simp [blockTrace, blockRest]
    · simp [blockTrace, blockRest]

/-- Witness for C3 on a 20-block model at the decade boundary `i = 9`:
block 9 is evicted before block 10 becomes resident on `cuda:1`. -/
theorem awq_c3_witness :
    awq_search 20 ["q_proj"] true true =
      Except.ok (searchTraceOk 20 ["q_proj"] true true) ∧
    (searchTraceOk 20 ["q_proj"] true true).count (SearchEvent.evict 9) = 1 ∧
    (searchTraceOk 20 ["q_proj"] true true).count
      (SearchEvent.makeResident 10 1) = 1 ∧
    occursBefore (SearchEvent.evict 9) (SearchEvent.makeResident 10 1)
      (searchTraceOk 20 ["q_proj"] true true) :=
  awq_c3 20 ["q_proj"] true true 9 (by decide) (by decide)

theorem filterMap_const_none {α β : Type} (l : List α) :
    l.filterMap (fun _ => (none : Option β)) = [] := by
  induction l with
  | nil => rfl
  | cons x xs ih => simp [List.filterMap_cons, ih]

theorem residentIdx_clearToCpu (x : Nat) :
    residentIdx (SearchEvent.clearToCpu x) = none := rfl

theorem residentIdx_registerHook (i : Nat) (s : String) :
    residentIdx (SearchEvent.registerHook i s) = none := rfl

theorem residentIdx_removeHook (i : Nat) (s : String) :
    residentIdx (SearchEvent.removeHook i s) = none := rfl

theorem residencyOrder_append (x y : List SearchEvent) :
    residencyOrder (x ++ y) = residencyOrder x ++ residencyOrder y :=
  List.filterMap_append x y residentIdx

theorem residencyOrder_blockTrace (names : List String) (a m : Bool) (k : Nat) :
    residencyOrder (blockTrace names a m k) = [k] := by
  cases a <;> cases m <;>
    simp [residencyOrder, blockTrace, blockRest, clearEvts, List.filterMap_append,
      List.filterMap_map, List.filterMap_cons, residentIdx, Function.comp_def,
      residentIdx_clearToCpu, residentIdx_registerHook, residentIdx_removeHook,
      filterMap_const_none]

theorem residencyOrder_traceUpTo (names : List String) (a m : Bool) (M : Nat) :
    residencyOrder (traceUpTo names a m M) = List.range M := by
  induction M with
  | zero => rfl
  | succ K ih =>
    rw [show traceUpTo names a m (K + 1) =
          traceUpTo names a m K ++ blockTrace names a m K from rfl,
        residencyOrder_append, ih, residencyOrder_blockTrace, List.range_succ]

theorem searchFeed_succ {α : Type} (f : Nat → α → α) (x0 : α) (n : Nat) :
    searchFeed f x0 (n + 1) =
      ((searchFeed f x0 n).1 ++ [(searchFeed f x0 n).2],
        f n (searchFeed f x0 n).2) := by
  simp [searchFeed, List.range_succ, List.foldl_append]

theorem searchFeed_closed {α : Type} (f : Nat → α → α) (x0 : α) (n : Nat) :
    searchFeed f x0 n = ((List.range n).map (inpsVal f x0), inpsVal f x0 n) := by
  induction n with
  | zero => simp [searchFeed, inpsVal]
  | succ k ih => rw [searchFeed_succ, ih]; simp [List.range_succ, inpsVal]

theorem searchTraceOk_split_block (names : List String) (a m : Bool)
    {i n : Nat} (h : i < n) :
    ∃ s, searchTraceOk n names a m =
      traceUpTo names a m i ++ (blockTrace names a m i ++ s) := by
  obtain ⟨s, hs⟩ := traceUpTo_split names a m (show i + 1 ≤ n from h)
  exact ⟨s, by rw [searchTraceOk, hs]; simp [traceUpTo, List.append_assoc]⟩

/-- Claim C4: the search pass processes blocks in strictly increasing
index order (its residency order is exactly `0, 1, ..., n-1`), and the
calibration input fed to block `i+1` is exactly the output block `i`
produced on its own calibration input (`inps = layer(inps, ...)[0]`). -/
theorem awq_c4 {α : Type} (n : Nat) (names : List String)
    (autoScale mseRange : Bool) (f : Nat → α → α) (x0 : α) :
    residencyOrder (searchTraceOk n names autoScale mseRange) = List.range n ∧
    (10 ∣ n → n ≠ 0 → awq_search n names autoScale mseRange =
      Except.ok (searchTraceOk n names autoScale mseRange)) ∧
    (∀ i, i + 1 < n → ∃ xi, (searchFeed f x0 n).1[i]? = some xi ∧
      (searchFeed f x0 n).1[i + 1]? = some (f i xi)) := by
  refine ⟨residencyOrder_traceUpTo names autoScale mseRange n,
    fun h10 hn => awq_search_ok h10 hn, fun i hi => ?_⟩
  refine ⟨inpsVal f x0 i, ?_, ?_⟩
  · rw [searchFeed_closed]
    simp [List.getElem?_map, List.getElem?_range (show i < n by omega)]
  · rw [searchFeed_closed]
    simp [List.getElem?_map, List.getElem?_range hi]
    rfl

/-- Witness for C4 on a 20-block model with a concrete block function:
the value fed to block 10 is block 9's output on its own input. -/
theorem awq_c4_witness :
    residencyOrder (searchTraceOk 20 ["q_proj"] true true) = List.range 20 ∧
    awq_search 20 ["q_proj"] true true =
      Except.ok (searchTraceOk 20 ["q_proj"] true true) ∧
    (∃ xi, (searchFeed (fun i x => x + i) (3 : Nat) 20).1[9]? = some xi ∧
      (searchFeed (fun i x => x + i) (3 : Nat) 20).1[10]? = some (xi + 9)) :=
  ⟨(awq_c4 20 ["q_proj"] true true (fun i x => x + i) 3).1,
   (awq_c4 20 ["q_proj"] true true (fun i x => x + i) 3).2.1
     (by decide) (by decide),
   (awq_c4 20 ["q_proj"] true true (fun i x => x + i) 3).2.2 9 (by decide)⟩

/-- Claim C5: within each block of the search pass (scale and clip search
both enabled), activation capture — the calibration forward pass and the
concatenation of captured inputs — fully completes before scale search
begins, and the application of the winning scales completes before clip
search begins, so clip search operates on already-scaled weights. -/
theorem awq_c5 (n : Nat) (names : List String) (i : Nat)
    (h10 : 10 ∣ n) (hi : i < n) :
    awq_search n names true true = Except.ok (searchTraceOk n names true true) ∧
    occursBefore (SearchEvent.blockForward i) (SearchEvent.scaleSearch i)
      (searchTraceOk n names true true) ∧
    occursBefore (SearchEvent.concatInputs i) (SearchEvent.scaleSearch i)
      (searchTraceOk n names true true) ∧
    occursBefore (SearchEvent.applyScale i) (SearchEvent.clipSearch i)
      (searchTraceOk n names true true) := by
  obtain ⟨s, hs⟩ := searchTraceOk_split_block names true true hi
  refine ⟨awq_search_ok h10 (by omega), ?_, ?_, ?_⟩
  · refine occursBefore_of_eq (l := searchTraceOk n names true true)
      (u := traceUpTo names true true i ++ clearEvts i ++
        [SearchEvent.makeResident i (i / 10)] ++
        names.map (SearchEvent.registerHook i))
      (A := [SearchEvent.blockForward i])
      (B := names.map (SearchEvent.removeHook i) ++
        [SearchEvent.concatInputs i, SearchEvent.scaleSearch i,
         SearchEvent.applyScale i, SearchEvent.clipSearch i,
         SearchEvent.applyClip i, SearchEvent.evict i])
      (v := s) ?_ (by simp) (by simp)
    rw [hs]
    simp [blockTrace, blockRest, List.append_assoc]
  · refine occursBefore_of_eq (l := searchTraceOk n names true true)
      (u := traceUpTo names true true i ++ clearEvts i ++
        [SearchEvent.makeResident i (i / 10)] ++
        names.map (SearchEvent.registerHook i) ++
        [SearchEvent.blockForward i] ++ names.map (SearchEvent.removeHook i))
      (A := [SearchEvent.concatInputs i])
      (B := [SearchEvent.scaleSearch i, SearchEvent.applyScale i,
        SearchEvent.clipSearch i, SearchEvent.applyClip i, SearchEvent.evict i])
      (v := s) ?_ (by simp) (by simp)
    rw [hs]
    simp [blockTrace, blockRest, List.append_assoc]
  · refine occursBefore_of_eq (l := searchTraceOk n names true true)
      (u := traceUpTo names true true i ++ clearEvts i ++
        [SearchEvent.makeResident i (i / 10)] ++
        names.map (SearchEvent.registerHook i) ++
        [SearchEvent.blockForward i] ++ names.map (SearchEvent.removeHook i) ++
        [SearchEvent.concatInputs i, SearchEvent.scaleSearch i])
      (A := [SearchEvent.applyScale i])
      (B := [SearchEvent.clipSearch i, SearchEvent.applyClip i,
        SearchEvent.evict i])
      (v := s) ?_ (by simp) (by simp)
    rw [hs]
    simp [blockTrace, blockRest, List.append_assoc]

/-- Witness for C5 on a 20-block model at block 9. -/
theorem awq_c5_witness :
    awq_search 20 ["q_proj"] true true =
      Except.ok (searchTraceOk 20 ["q_proj"] true true) ∧
    occursBefore (SearchEvent.blockForward 9) (SearchEvent.scaleSearch 9)
      (searchTraceOk 20 ["q_proj"] true true) ∧
    occursBefore (SearchEvent.concatInputs 9) (SearchEvent.scaleSearch 9)
      (searchTraceOk 20 ["q_proj"] true true) ∧
    occursBefore (SearchEvent.applyScale 9) (SearchEvent.clipSearch 9)
      (searchTraceOk 20 ["q_proj"] true true) :=
  awq_c5 20 ["q_proj"] 9 (by decide) (by decide)

/-- Claim C6: every forward hook registered on a block's linear sublayers
for activation capture is registered before and removed after that block's
calibration forward pass, the removal precedes the block's scale search,
and it also precedes the moment any later block becomes resident — no
hook leaks across blocks. -/
theorem awq_c6 (n : Nat) (names : List String) (i j : Nat) (name : String)
    (h10 : 10 ∣ n) (hij : i < j) (hj : j < n) (hname : name ∈ names) :
    awq_search n names true true = Except.ok (searchTraceOk n names true true) ∧
    occursBefore (SearchEvent.registerHook i name) (SearchEvent.removeHook i name)
      (searchTraceOk n names true true) ∧
    occursBefore (SearchEvent.blockForward i) (SearchEvent.removeHook i name)
      (searchTraceOk n names true true) ∧
    occursBefore (SearchEvent.removeHook i name) (SearchEvent.scaleSearch i)
      (searchTraceOk n names true true) ∧
    occursBefore (SearchEvent.removeHook i name)
      (SearchEvent.makeResident j (j / 10))
      (searchTraceOk n names true true) := by
  have hi : i < n := by omega
  obtain ⟨s, hs⟩ := searchTraceOk_split_block names true true hi
  refine ⟨awq_search_ok h10 (by omega), ?_, ?_, ?_, ?_⟩
  · refine occursBefore_of_eq (l := searchTraceOk n names true true)
      (u := traceUpTo names true true i ++ clearEvts i ++
        [SearchEvent.makeResident i (i / 10)])
      (A := names.map (SearchEvent.registerHook i) ++
        [SearchEvent.blockForward i])
      (B := names.map (SearchEvent.removeHook i) ++
        [SearchEvent.concatInputs i, SearchEvent.scaleSearch i,
         SearchEvent.applyScale i, SearchEvent.clipSearch i,
         SearchEvent.applyClip i, SearchEvent.evict i])
      (v := s) ?_ ?_ ?_
    · rw [hs]
      simp [blockTrace, blockRest, List.append_assoc]
    · exact List.mem_append_left _ (List.mem_map_of_mem _ hname)
    · exact List.mem_append_left _ (List.mem_map_of_mem _ hname)
  · refine occursBefore_of_eq (l := searchTraceOk n names true true)
      (u := traceUpTo names true true i ++ clearEvts i ++
        [SearchEvent.makeResident i (i / 10)] ++
        names.map (SearchEvent.registerHook i))
      (A := [SearchEvent.blockForward i])
      (B := names.map (SearchEvent.removeHook i) ++
        [SearchEvent.concatInputs i, SearchEvent.scaleSearch i,
         SearchEvent.applyScale i, SearchEvent.clipSearch i,
         SearchEvent.applyClip i, SearchEvent.evict i])
      (v := s) ?_ (by simp) ?_
    · rw [hs]
      simp [blockTrace, blockRest, List.append_assoc]
    · exact List.mem_append_left _ (List.mem_map_of_mem _ hname)
  · refine occursBefore_of_eq (l := searchTraceOk n names true true)
      (u := traceUpTo names true true i ++ clearEvts i ++
        [SearchEvent.makeResident i (i / 10)] ++
        names.map (SearchEvent.registerHook i) ++ [SearchEvent.blockForward i])
      (A := names.map (SearchEvent.removeHook i) ++
        [SearchEvent.concatInputs i])
      (B := [SearchEvent.scaleSearch i, SearchEvent.applyScale i,
        SearchEvent.clipSearch i, SearchEvent.applyClip i, SearchEvent.evict i])
      (v := s) ?_ ?_ (by simp)
    · rw [hs]
      simp [blockTrace, blockRest, List.append_assoc]
    · exact List.mem_append_left _ (List.mem_map_of_mem _ hname)
  · obtain ⟨m1, hm1⟩ := traceUpTo_split names true true
      (show i + 1 ≤ j from hij)
    obtain ⟨s2, hs2⟩ := traceUpTo_split names true true
      (show j + 1 ≤ n from hj)
    have hmem : SearchEvent.removeHook i name ∈ blockTrace names true true i := by
      have h1 : SearchEvent.removeHook i name ∈
          names.map (SearchEvent.removeHook i) := List.mem_map_of_mem _ hname
      refine List.mem_append_right _ ?_
      unfold blockRest
      exact List.mem_append_left _ (List.mem_append_left _
        (List.mem_append_left _ (List.mem_append_left _
          (List.mem_append_right _ h1))))
    refine occursBefore_of_eq (l := searchTraceOk n names true true)
      (u := traceUpTo names true true i)
      (A := blockTrace names true true i ++ m1)
      (B := blockTrace names true true j)
      (v := s2) ?_ (List.mem_append_left _ hmem) ?_
    · rw [searchTraceOk, hs2]
      rw [show traceUpTo names true true (j + 1) =
        traceUpTo names true true j ++ blockTrace names true true j from rfl]
      rw [hm1]
      rw [show traceUpTo names true true (i + 1) =
        traceUpTo names true true i ++ blockTrace names true true i from rfl]
      simp [List.append_assoc]
    · simp [blockTrace, blockRest]

/-- Witness for C6 on a 20-block model: block 9's hook on `q_proj` is
registered before and removed after its forward pass, before its scale
search, and before block 10 becomes resident. -/
theorem awq_c6_witness :
    awq_search 20 ["q_proj"] true true =
      Except.ok (searchTraceOk 20 ["q_proj"] true true) ∧
    occursBefore (SearchEvent.registerHook 9 "q_proj")
      (SearchEvent.removeHook 9 "q_proj")
      (searchTraceOk 20 ["q_proj"] true true) ∧
    occursBefore (SearchEvent.blockForward 9) (SearchEvent.removeHook 9 "q_proj")
      (searchTraceOk 20 ["q_proj"] true true) ∧
    occursBefore (SearchEvent.removeHook 9 "q_proj") (SearchEvent.scaleSearch 9)
      (searchTraceOk 20 ["q_proj"] true true) ∧
    occursBefore (SearchEvent.removeHook 9 "q_proj")
      (SearchEvent.makeResident 10 1)
      (searchTraceOk 20 ["q_proj"] true true) :=
  awq_c6 20 ["q_proj"] 9 10 "q_proj" (by decide) (by decide) (by decide)
    (by decide)

theorem quantPhase_cfg (c : QuantConfigM) (b : List QBlock)
    (t : List SearchEvent) (r : Bool) : (quantPhase c b t r).cfg = c := by
  cases r with
  | false => rfl
  | true =>
    cases h : awq_quant c b with
    | error p => obtain ⟨f, st⟩ := p; simp [quantPhase, h]
    | ok st => simp [quantPhase, h]

theorem quantize_cfg (cfg0 : QuantConfigM) (blocks : List QBlock)
    (names : List String) (a m rs rq : Bool) :
    (quantize cfg0 blocks names a m rs rq).cfg = withDefaultVersion cfg0 := by
  cases rs with
  | false => simp [quantize, quantPhase_cfg]
  | true =>
    cases h : awq_search blocks.length names a m with
    | error e => simp [quantize, h]
    | ok tr => simp [quantize, h, quantPhase_cfg]

/-- Claim C1 counterexample: a quantize invocation with
`zero_point = false`, `run_search = true` and `run_quant = true` on a
10-block model does **not** fail before search work is performed — the
entire search pass runs (its trace contains block 0's calibration forward
pass) and only then does the `zero_point` assertion at the start of
`_awq_quant` fire. -/
theorem awq_c1_cex :
    (quantize ⟨false, 1, 2, none⟩ (List.replicate 10 [("q", [(1 : ℚ)])])
        ["q"] true true true true).result =
      Except.error (RunErr.quantFail QFail.zeroPointAssert
        ((List.replicate 10 [("q", [(1 : ℚ)])]).map floatify)) ∧
    SearchEvent.blockForward 0 ∈
      (quantize ⟨false, 1, 2, none⟩ (List.replicate 10 [("q", [(1 : ℚ)])])
        ["q"] true true true true).searchTrace := by
  decide

/-- Claim C1 (amended): with `zero_point ≠ true` the run fails with the
assertion at the start of `_awq_quant`, before any block is quantized
(the model state carried by the failure is the untouched floating-point
model); but the check is not performed before the search pass — with
`run_search` disabled it fires immediately, while with `run_search`
enabled the entire search pass executes first. -/
theorem awq_c1 (cfg0 : QuantConfigM) (blocks : List QBlock)
    (names : List String) (autoScale mseRange : Bool)
    (h : cfg0.zero_point = false) :
    ((quantize cfg0 blocks names autoScale mseRange false true).result =
        Except.error (RunErr.quantFail QFail.zeroPointAssert
          (blocks.map floatify)) ∧
      (quantize cfg0 blocks names autoScale mseRange false true).searchTrace =
        []) ∧
    (10 ∣ blocks.length → blocks ≠ [] →
      (quantize cfg0 blocks names autoScale mseRange true true).result =
        Except.error (RunErr.quantFail QFail.zeroPointAssert
          (blocks.map floatify)) ∧
      (quantize cfg0 blocks names autoScale mseRange true true).searchTrace =
        searchTraceOk blocks.length names autoScale mseRange) := by
  have hzp : (withDefaultVersion cfg0).zero_point = false := h
  have hq : awq_quant (withDefaultVersion cfg0) blocks =
      Except.error (QFail.zeroPointAssert, blocks.map floatify) := by
    simp [awq_quant, hzp]
  refine ⟨?_, fun h10 hne => ?_⟩
  · constructor <;> simp [quantize, quantPhase, hq]
  · have hn : blocks.length ≠ 0 := fun hl => hne (List.length_eq_zero.mp hl)
    have hs : awq_search blocks.length names autoScale mseRange =
        Except.ok (searchTraceOk blocks.length names autoScale mseRange) :=
      awq_search_ok h10 hn
    constructor <;> simp [quantize, hs, quantPhase, hq]

/-- Witness for C1 (amended) at a concrete config and 10-block model. -/
theorem awq_c1_witness :
    ((quantize ⟨false, 1, 2, none⟩ (List.replicate 10 [("q", [(1 : ℚ)])])
        ["q"] true true false true).result =
      Except.error (RunErr.quantFail QFail.zeroPointAssert
        ((List.replicate 10 [("q", [(1 : ℚ)])]).map floatify)) ∧
      (quantize ⟨false, 1, 2, none⟩ (List.replicate 10 [("q", [(1 : ℚ)])])
        ["q"] true true false true).searchTrace = []) ∧
    ((quantize ⟨false, 1, 2, none⟩ (List.replicate 10 [("q", [(1 : ℚ)])])
        ["q"] true true true true).result =
      Except.error (RunErr.quantFail QFail.zeroPointAssert
        ((List.replicate 10 [("q", [(1 : ℚ)])]).map floatify)) ∧
      (quantize ⟨false, 1, 2, none⟩ (List.replicate 10 [("q", [(1 : ℚ)])])
        ["q"] true true true true).searchTrace =
        searchTraceOk 10 ["q"] true true) :=
  ⟨(awq_c1 ⟨false, 1, 2, none⟩ (List.replicate 10 [("q", [(1 : ℚ)])])
      ["q"] true true rfl).1,
   (awq_c1 ⟨false, 1, 2, none⟩ (List.replicate 10 [("q", [(1 : ℚ)])])
      ["q"] true true rfl).2 (by decide) (by decide)⟩

/-- Claim C2 counterexample: in `from_quantized` with a caller-supplied
`version="GEMV"`, a quant config file lacking a `version` field is set to
`"GEMV"`, not `"GEMM"`. -/
theorem awq_c2_cex :
    from_quantized_config (some ⟨true, 128, 4, none⟩) "GEMV" =
      ⟨true, 128, 4, some "GEMV"⟩ ∧
    (⟨true, 128, 4, some "GEMV"⟩ : QuantConfigM).version ≠ some "GEMM" := by
  decide

/-- Claim C2 (amended): in `quantize` a missing `version` is set to
`"GEMM"` exactly once at the start (a present one is kept, and the
defaulting is idempotent), and the config object returned by the run is
exactly that once-defaulted config; in `from_quantized` a missing
`version` is set once to the call's `version` parameter — whose default
is `"GEMM"`, but which a caller may override — and a present one is
kept. -/
theorem awq_c2 (cfg0 : QuantConfigM) (blocks : List QBlock)
    (names : List String) (autoScale mseRange rs rq : Bool)
    (fc : QuantConfigM) (ver : String) :
    (cfg0.version = none →
      withDefaultVersion cfg0 = { cfg0 with version := some "GEMM" }) ∧
    (∀ v, cfg0.version = some v → withDefaultVersion cfg0 = cfg0) ∧
    withDefaultVersion (withDefaultVersion cfg0) = withDefaultVersion cfg0 ∧
    (quantize cfg0 blocks names autoScale mseRange rs rq).cfg =
      withDefaultVersion cfg0 ∧
    default_load_version = "GEMM" ∧
    (fc.version = none →
      from_quantized_config (some fc) ver = { fc with version := some ver }) ∧
    (∀ v, fc.version = some v → from_quantized_config (some fc) ver = fc) ∧
    (from_quantized_config none ver).version = some ver := by
  refine ⟨?_, ?_, ?_, quantize_cfg cfg0 blocks names autoScale mseRange rs rq,
    rfl, ?_, ?_, rfl⟩
  · intro hv
    simp [withDefaultVersion, hv]
  · intro v hv
    cases cfg0
    simp_all [withDefaultVersion]
  · simp [withDefaultVersion]
  · intro hv
    simp [from_quantized_config, hv]
  · intro v hv
    simp [from_quantized_config, hv]

/-- Witness for C2 (amended) at concrete configs: defaulting in
`quantize` fills `"GEMM"`, keeps a present `"GEMV"`, the run returns the
defaulted config unchanged, and `from_quantized` fills the call's
`version` parameter. -/
theorem awq_c2_witness :
    withDefaultVersion ⟨true, 128, 4, none⟩ =
      { (⟨true, 128, 4, none⟩ : QuantConfigM) with version := some "GEMM" } ∧
    withDefaultVersion ⟨true, 128, 4, some "GEMV"⟩ =
      ⟨true, 128, 4, some "GEMV"⟩ ∧
    (quantize ⟨true, 128, 4, none⟩ [] [] true true false false).cfg =
      withDefaultVersion ⟨true, 128, 4, none⟩ ∧
    from_quantized_config (some ⟨true, 128, 4, none⟩) "GEMM" =
      { (⟨true, 128, 4, none⟩ : QuantConfigM) with version := some "GEMM" } :=
  ⟨(awq_c2 ⟨true, 128, 4, none⟩ [] [] true true false false
      ⟨true, 128, 4, none⟩ "GEMM").1 rfl,
   (awq_c2 ⟨true, 128, 4, some "GEMV"⟩ [] [] true true false false
      ⟨true, 128, 4, none⟩ "GEMM").2.1 "GEMV" rfl,
   (awq_c2 ⟨true, 128, 4, none⟩ [] [] true true false false
      ⟨true, 128, 4, none⟩ "GEMM").2.2.2.1,
   (awq_c2 ⟨true, 128, 4, none⟩ [] [] true true false false
      ⟨true, 128, 4, none⟩ "GEMM").2.2.2.2.2.1 rfl⟩

/-- Claim C7 counterexample: in `_awq_quant` with the unrecognized
version tag `"XXX"`, the failure (an unbound `q_linear_module`, not a
`ConfigError`) is raised only after the first sublayer's weight has
already been pseudo-quantized in place: the model state carried by the
failure holds `[0, 0, 8, 8]` where the original weight was
`[0, 1, 7, 8]`. -/
theorem awq_c7_cex :
    awq_quant ⟨true, 4, 2, some "XXX"⟩ [[("q", [0, 1, 7, 8])]] =
      Except.error (QFail.versionUnbound,
        [[("q", LinMod.float [0, 0, 8, 8])]]) ∧
    ([0, 0, 8, 8] : List ℚ) ≠ [0, 1, 7, 8] := by
  have hpq : pseudo_quantize_tensor 2 4 [0, 1, 7, 8] = [0, 0, 8, 8] := by
    norm_num [pseudo_quantize_tensor, chunkList, chunkListAux, quantGroupSpec,
      List.foldl, round_eq]
  constructor
  · simp [awq_quant, quantBlocks, quantLinears, hpq]
  · norm_num

/-- Claim C7 (amended): a version tag that is neither `"GEMM"` nor
`"GEMV"` makes both passes fail with an unbound-variable error (no
`ConfigError` exists in the code) at the first linear sublayer processed;
in `_awq_quant` the failure occurs **after** that sublayer's weight has
been pseudo-quantized in place (remaining sublayers untouched), while in
`_load_quantized_modules` it occurs before any weight is modified. -/
theorem awq_c7 (cfg : QuantConfigM) (nm : String) (w : List ℚ)
    (rest : List (String × List ℚ)) (more : List QBlock) (ver : String)
    (hzp : cfg.zero_point = true) (hv : cfg.version = some ver)
    (hg : ver ≠ "GEMM") (hgv : ver ≠ "GEMV") :
    awq_quant cfg (((nm, w) :: rest) :: more) =
      Except.error (QFail.versionUnbound,
        ((nm, LinMod.float
            (pseudo_quantize_tensor cfg.w_bit cfg.q_group_size w)) ::
          rest.map (fun p => (p.1, LinMod.float p.2))) :: more.map floatify) ∧
    load_quantized_modules true ver (((nm, w) :: rest) :: more) =
      Except.error (QFail.versionUnbound,
        (((nm, w) :: rest) :: more).map floatify) := by
  have hcond : ¬ (cfg.version = some "GEMM" ∨ cfg.version = some "GEMV") := by
    simp [hv, hg, hgv]
  have hver : ¬ (ver = "GEMM" ∨ ver = "GEMV") := by simp [hg, hgv]
  constructor
  · simp [awq_quant, hzp, quantBlocks, quantLinears, hcond]
  · simp [load_quantized_modules, loadBlocks, loadLinears, hver, floatify]

/-- Witness for C7 (amended) at the concrete tag `"XXX"` and weight
`[0, 1, 7, 8]`. -/
theorem awq_c7_witness :
    awq_quant ⟨true, 4, 2, some "XXX"⟩ [[("q", [0, 1, 7, 8])]] =
      Except.error (QFail.versionUnbound,
        [[("q", LinMod.float (pseudo_quantize_tensor 2 4 [0, 1, 7, 8]))]]) ∧
    load_quantized_modules true "XXX" [[("q", [0, 1, 7, 8])]] =
      Except.error (QFail.versionUnbound,
        [[("q", LinMod.float [0, 1, 7, 8])]]) :=
  awq_c7 ⟨true, 4, 2, some "XXX"⟩ "q" [0, 1, 7, 8] [] [] "XXX" rfl rfl
    (by decide) (by decide)

theorem awq_results_key {α : Type} (opName : Nat → String)
    (recs : Nat → List (String × α)) (n : Nat) :
    ∀ r ∈ awq_results_entries opName recs n,
      ∃ i loc, i < n ∧ r.1 = opName i ++ "." ++ loc ∧ (loc, r.2) ∈ recs i := by
  induction n with
  | zero => intro r hr; simp [awq_results_entries] at hr
  | succ k ih =>
    intro r hr
    have hstep : awq_results_entries opName recs (k + 1) =
        awq_results_entries opName recs k ++
          appendStrPre (recs k) (opName k ++ ".") := by
      simp only [awq_results_entries, List.range_succ, List.foldl_append]
      rfl
    rw [hstep] at hr
    rcases List.mem_append.mp hr with h | h
    · obtain ⟨i, loc, hi, h1, h2⟩ := ih r h
      exact ⟨i, loc, by omega, h1, h2⟩
    · obtain ⟨q, hmem, heq⟩ := List.mem_map.mp h
      obtain ⟨nm0, pay⟩ := q
      subst heq
      exact ⟨k, nm0, by omega, rfl, hmem⟩

/-- Claim C8: `save_quantized` persists the search result as a standalone
file — no shard call and no weight shard written — exactly when a search
result exists and the model is not quantized; otherwise it saves the
weights via `shard_checkpoint` (default shard cap `"10GB"`), writing each
shard and a shard index exactly when sharding produced one; in every case
it writes `quant_config.json` into the save directory; and every record
accumulated into the persisted search result is keyed by the
block-qualified (prefixed) sublayer name. -/
theorem awq_c8 {α : Type} (d : String) (st : Bool) (sz : String)
    (sr : Option SearchResultM) (isq : Bool) (shards : List String)
    (hasIndex : Bool) (opName : Nat → String)
    (recs : Nat → List (String × α)) (n : Nat) :
    ((∃ p s, SaveAction.saveSearchResult p s ∈
        save_quantized d st sz sr isq shards hasIndex) ↔
      (sr ≠ none ∧ isq = false)) ∧
    (∀ s, sr = some s → isq = false →
      SaveAction.saveSearchResult
          (stripSlash d ++ "/awq_model_search_result.pt") s ∈
        save_quantized d st sz sr isq shards hasIndex ∧
      (∀ p, SaveAction.saveShard p ∉
        save_quantized d st sz sr isq shards hasIndex) ∧
      (∀ z w, SaveAction.shardCall z w ∉
        save_quantized d st sz sr isq shards hasIndex)) ∧
    ((sr = none ∨ isq = true) →
      SaveAction.shardCall sz
          (if st then "model.safetensors" else "pytorch_model.bin") ∈
        save_quantized d st sz sr isq shards hasIndex ∧
      (∀ f ∈ shards, SaveAction.saveShard (stripSlash d ++ "/" ++ f) ∈
        save_quantized d st sz sr isq shards hasIndex) ∧
      ((∃ p, SaveAction.saveShardIndex p ∈
          save_quantized d st sz sr isq shards hasIndex) ↔ hasIndex = true)) ∧
    SaveAction.saveQuantConfig (stripSlash d ++ "/quant_config.json") ∈
      save_quantized d st sz sr isq shards hasIndex ∧
    save_quantized_default d st sr isq shards hasIndex =
      save_quantized d st "10GB" sr isq shards hasIndex ∧
    (∀ r ∈ awq_results_entries opName recs n,
      ∃ i loc, i < n ∧ r.1 = opName i ++ "." ++ loc ∧ (loc, r.2) ∈ recs i) := by
  refine ⟨?_, ?_, ?_, ?_, rfl, awq_results_key opName recs n⟩
  · rcases sr with _ | s0 <;> cases isq <;>
      simp [save_quantized, save_files, List.mem_append, List.mem_map]
  · intro s hsr hisq
    subst hsr hisq
    refine ⟨?_, ?_, ?_⟩ <;>
      simp [save_quantized, save_files, List.mem_append, List.mem_map,
        String.append_assoc]
  · intro h
    have hcond : (sr.isNone || isq) = true := by
      rcases h with h | h <;> simp [h]
    refine ⟨?_, ?_, ?_⟩
    · cases st <;>
        simp [save_quantized, hcond, save_files, List.mem_append]
    · intro f hf
      simp [save_quantized, hcond, save_files, List.mem_append, List.mem_map]
      exact ⟨f, hf, rfl⟩
    · cases hasIndex <;>
        simp [save_quantized, hcond, save_files, List.mem_append, List.mem_map]
  · rcases sr with _ | s0 <;> cases isq <;>
      simp [save_quantized, save_files, List.mem_append, List.mem_map]

/-- Witness for C8 at concrete inputs: a search-only model persists only
the search-result file, a quantized/no-result model shards the weights and
writes the index, `quant_config.json` is always written, and a concrete
accumulated record is block-prefixed. -/
theorem awq_c8_witness :
    (SaveAction.saveSearchResult
        (stripSlash "/out" ++ "/awq_model_search_result.pt")
        ⟨[("model.layers.0.q_proj", [1])], []⟩ ∈
      save_quantized "/out" false "10GB"
        (some ⟨[("model.layers.0.q_proj", [1])], []⟩) false ["s1"] true ∧
      (∀ p, SaveAction.saveShard p ∉ save_quantized "/out" false "10GB"
        (some ⟨[("model.layers.0.q_proj", [1])], []⟩) false ["s1"] true) ∧
      (∀ z w, SaveAction.shardCall z w ∉ save_quantized "/out" false "10GB"
        (some ⟨[("model.layers.0.q_proj", [1])], []⟩) false ["s1"] true)) ∧
    (SaveAction.shardCall "10GB" "pytorch_model.bin" ∈
      save_quantized "/out" false "10GB" none false ["s1"] true ∧
      (∀ f ∈ ["s1"], SaveAction.saveShard (stripSlash "/out" ++ "/" ++ f) ∈
        save_quantized "/out" false "10GB" none false ["s1"] true) ∧
      ((∃ p, SaveAction.saveShardIndex p ∈
        save_quantized "/out" false "10GB" none false ["s1"] true) ↔
          true = true)) ∧
    SaveAction.saveQuantConfig (stripSlash "/out" ++ "/quant_config.json") ∈
      save_quantized "/out" false "10GB" none false ["s1"] true ∧
    (∀ r ∈ awq_results_entries (fun _ => "model.layers.0")
        (fun _ => [("q_proj", ([1] : List ℚ))]) 1,
      ∃ i loc, i < 1 ∧ r.1 = "model.layers.0" ++ "." ++ loc ∧
        (loc, r.2) ∈ [("q_proj", ([1] : List ℚ))]) :=
  ⟨(awq_c8 "/out" false "10GB" (some ⟨[("model.layers.0.q_proj", [1])], []⟩)
      false ["s1"] true (fun _ => "model.layers.0")
      (fun _ => [("q_proj", ([1] : List ℚ))]) 1).2.1
      ⟨[("model.layers.0.q_proj", [1])], []⟩ rfl rfl,
   (awq_c8 "/out" false "10GB" none false ["s1"] true
      (fun _ => "model.layers.0") (fun _ => [("q_proj", ([1] : List ℚ))]) 1).2.2.1
      (Or.inl rfl),
   (awq_c8 "/out" false "10GB" none false ["s1"] true
      (fun _ => "model.layers.0") (fun _ => [("q_proj", ([1] : List ℚ))]) 1).2.2.2.1,
   (awq_c8 "/out" false "10GB" none false ["s1"] true
      (fun _ => "model.layers.0") (fun _ => [("q_proj", ([1] : List ℚ))]) 1).2.2.2.2.2⟩

/-- Claim C10: `_scale_activations` is idempotent — once its output block
carries a `ScaledActivation` (or the block is not scalable), applying it
again leaves the block unchanged — and when it does wrap, the adapter's
scale tensor is `torch.ones(scale_shape)` (all ones) with the dtype and
device of the block's first parameter. -/
theorem awq_c10 (l : LayerM) :
    (∀ u, scale_activations l = some u → scale_activations u = some u) ∧
    (∀ a s, l.actInfo.is_scalable = true →
      l.actModule = ActModule.scaledActivation a s →
      scale_activations l = some l) ∧
    (∀ nm p ps, l.actInfo.is_scalable = true →
      l.actModule = ActModule.plain nm → l.params = p :: ps →
      scale_activations l = some { l with
        actModule := ActModule.scaledActivation (ActModule.plain nm)
          (onesT l.actInfo.scale_shape p.dtype p.device) } ∧
      (onesT l.actInfo.scale_shape p.dtype p.device).vals =
        List.replicate (l.actInfo.scale_shape.foldl (· * ·) 1) 1 ∧
      (onesT l.actInfo.scale_shape p.dtype p.device).dtype = p.dtype ∧
      (onesT l.actInfo.scale_shape p.dtype p.device).device = p.device) := by
  refine ⟨?_, ?_, ?_⟩
  · intro u hu
    by_cases hsc : l.actInfo.is_scalable
    · cases hmod : l.actModule with
      | plain nm =>
        cases hp : l.params with
        | nil => simp [scale_activations, get_act_for_scaling, hsc, hmod, hp] at hu
        | cons p ps =>
          simp [scale_activations, get_act_for_scaling, hsc, hmod, hp] at hu
          subst hu
          simp [scale_activations, get_act_for_scaling, hsc]
      | scaledActivation a s =>
        simp [scale_activations, get_act_for_scaling, hsc, hmod] at hu
        subst hu
        simp [scale_activations, get_act_for_scaling, hsc, hmod]
    · simp [scale_activations, get_act_for_scaling, hsc] at hu
      subst hu
      simp [scale_activations, get_act_for_scaling, hsc]
  · intro a s h1 h2
    simp [scale_activations, get_act_for_scaling, h1, h2]
  · intro nm p ps h1 h2 h3
    exact ⟨by simp [scale_activations, get_act_for_scaling, h1, h2, h3],
      rfl, rfl, rfl⟩

/-- Witness for C10 at a concrete block: wrapping yields a
`ScaledActivation` whose scale tensor is all ones with the parameter's
dtype and device, and a second application leaves the block unchanged. -/
theorem awq_c10_witness :
    scale_activations
        ⟨[⟨[3], "float16", "cuda:0", [1, 2]⟩], ⟨true, "act", [3]⟩,
          ActModule.plain "gelu"⟩ =
      some { (⟨[⟨[3], "float16", "cuda:0", [1, 2]⟩], ⟨true, "act", [3]⟩,
          ActModule.plain "gelu"⟩ : LayerM) with
        actModule := ActModule.scaledActivation (ActModule.plain "gelu")
          (onesT [3] "float16" "cuda:0") } ∧
    scale_activations { (⟨[⟨[3], "float16", "cuda:0", [1, 2]⟩],
          ⟨true, "act", [3]⟩, ActModule.plain "gelu"⟩ : LayerM) with
        actModule := ActModule.scaledActivation (ActModule.plain "gelu")
          (onesT [3] "float16" "cuda:0") } =
      some { (⟨[⟨[3], "float16", "cuda:0", [1, 2]⟩], ⟨true, "act", [3]⟩,
          ActModule.plain "gelu"⟩ : LayerM) with
        actModule := ActModule.scaledActivation (ActModule.plain "gelu")
          (onesT [3] "float16" "cuda:0") } ∧
    (onesT [3] "float16" "cuda:0").vals = List.replicate 3 1 ∧
    (onesT [3] "float16" "cuda:0").dtype = "float16" ∧
    (onesT [3] "float16" "cuda:0").device = "cuda:0" :=
  have h3 := (awq_c10 ⟨[⟨[3], "float16", "cuda:0", [1, 2]⟩],
      ⟨true, "act", [3]⟩, ActModule.plain "gelu"⟩).2.2 "gelu"
      ⟨[3], "float16", "cuda:0", [1, 2]⟩ [] rfl rfl rfl
  ⟨h3.1,
   (awq_c10 ⟨[⟨[3], "float16", "cuda:0", [1, 2]⟩], ⟨true, "act", [3]⟩,
      ActModule.plain "gelu"⟩).1 _ h3.1,
   h3.2.1, h3.2.2.1, h3.2.2.2⟩

end AWQ
